import Mathlib

/-!
Verification development for the warc-processor repository.

The definitions below are a shallow embedding of the Python sources:
`models/warc_mime_types.py`, `models/warc_identifiers.py`,
`models/warc_record.py`, `warc_record_parser.py`, `warc_record_processor.py`,
`warc_processor.py`, `warc_record_processor_chain.py`, `processing_stats.py`,
`writers/plain_text_writer.py`, `plain_text_writer.py`, `writers/json_writer.py`.
Python strings are Lean `String`, bytes are `List Nat`, exceptions are `Except`,
`None`-returning fallible functions are `Option`.  Machine integers do not occur
(all counters are unbounded Python ints, so `Nat` is exact).
-/

deriving instance DecidableEq for Except

/-- Whether the first character list is a prefix of the second. -/
def isPrefixList : List Char → List Char → Bool
  | [], _ => true
  | _ :: _, [] => false
  | a :: as, b :: bs => a = b && isPrefixList as bs

/-- Worker for Python `str.split(sep)`: scan left to right, cutting at each
non-overlapping occurrence of `sep`.  The fuel is the input length plus one;
every step consumes one fuel unit and at least one character. -/
def splitGo (sep : List Char) : Nat → List Char → List Char → List (List Char)
  | 0, acc, l => [acc.reverse ++ l]
  | _ + 1, acc, [] => [acc.reverse]
  | fuel + 1, acc, c :: cs =>
    if isPrefixList sep (c :: cs) then
      acc.reverse :: splitGo sep fuel [] (List.drop sep.length (c :: cs))
    else
      splitGo sep fuel (c :: acc) cs

/-- Python `s.split(sep)` for a non-empty separator. -/
def pySplit (sep s : String) : List String :=
  (splitGo sep.data (s.data.length + 1) [] s.data).map String.mk

/-- Python `s.split(sep, 1)`: split at the first occurrence of `sep` only.
Returns a one-element list when `sep` does not occur. -/
def splitFirst (sep s : String) : List String :=
  match pySplit sep s with
  | [] => []
  | [x] => [x]
  | x :: rest => [x, String.intercalate sep rest]

/-- Python `sep in s` substring test, via splitting: `sep` occurs in `s`
iff splitting on it yields more than one part. -/
def strContainsSub (s sep : String) : Bool :=
  (pySplit sep s).length > 1

/-- The characters Python `str.strip()` removes. -/
def isPySpace (c : Char) : Bool :=
  c = ' ' || c = '\t' || c = '\n' || c = '\r' ||
  c = Char.ofNat 11 || c = Char.ofNat 12

/-- Python `s.strip()`: drop whitespace from both ends. -/
def pyStrip (s : String) : String :=
  String.mk (((s.data.dropWhile isPySpace).reverse.dropWhile isPySpace).reverse)

/-- Python `s.lower()` (the inputs the sources lower-case are ASCII header
and MIME names, for which per-character lowering is exact). -/
def pyLower (s : String) : String :=
  String.mk (s.data.map Char.toLower)

/-- Python `s.startswith(pre)`. -/
def pyStartsWith (s pre : String) : Bool :=
  isPrefixList pre.data s.data

/-- Python dict assignment `d[k] = v` on an insertion-ordered association list:
overwrite in place when the key exists, append otherwise. -/
def dictInsert (k v : String) (l : List (String × String)) : List (String × String) :=
  if l.any (fun p => p.1 = k) then
    l.map (fun p => if p.1 = k then (k, v) else p)
  else l ++ [(k, v)]

/-- Python exception kinds distinguished by the parser and orchestrator
`except` clauses.  `valueError` also covers its subclasses
(`ContentTypeError`, `FileExistsError` is modelled separately). -/
inductive PyErr where
  | valueError
  | attributeError
deriving Repr, DecidableEq

/-- `models/warc_mime_types.py` `ContentType`: main type, subtype and
parameter map (insertion-ordered, keys lower-cased). -/
structure ContentType where
  mainType : String
  subtype : String
  parameters : List (String × String)
deriving Repr, DecidableEq

/-- The parameter-parsing loop of `ContentType.__init__`
(`for part in parts[1:]`): each `;`-separated part must split on the first
`=` into a non-empty stripped key and value; keys are lower-cased. -/
def parseParams : List String → List (String × String) → Option (List (String × String))
  | [], acc => some acc
  | p :: ps, acc =>
    match splitFirst "=" (pyStrip p) with
    | [k, v] =>
      let key := pyStrip k
      let val := pyStrip v
      if key = "" ∨ val = "" then none
      else parseParams ps (dictInsert (pyLower key) val acc)
    | _ => none

/-- `ContentType.__init__` called with a single MIME string
(`models/warc_mime_types.py` lines 36-69): `none` models a raised
`ContentTypeError` (a `ValueError`). -/
def ContentType.parse (s : String) : Option ContentType :=
  if s = "" then none
  else
    match pySplit "/" (pyStrip ((pySplit ";" s).headD "")) with
    | [m0, s0] =>
      let mainType := pyStrip m0
      let subtype := pyStrip s0
      if mainType = "" ∨ subtype = "" then none
      else if strContainsSub s "//" then none
      else
        match parseParams ((pySplit ";" s).drop 1) [] with
        | some ps => some ⟨pyLower mainType, pyLower subtype, ps⟩
        | none => none
    | _ => none

/-- `ContentType.__str__`: `main/sub` followed by `; k=v` parameters. -/
def ContentType.str (ct : ContentType) : String :=
  ct.mainType ++ "/" ++ ct.subtype ++
    (if ct.parameters.isEmpty then ""
     else "; " ++ String.intercalate "; " (ct.parameters.map (fun p => p.1 ++ "=" ++ p.2)))

/-- `models/warc_identifiers.py` `WarcRecordId`: stores the given value
unvalidated; the parser can hand it `None` (modelled as `none`). -/
structure WarcRecordId where
  recordId : Option String
deriving Repr, DecidableEq

/-- `models/warc_identifiers.py` `PayloadDigest`: an opaque stored string. -/
structure PayloadDigest where
  digest : String
deriving Repr, DecidableEq

/-- `models/warc_identifiers.py` `WarcUri`: the validated URI string. -/
structure WarcUri where
  uri : String
deriving Repr, DecidableEq

/-- Characters the standard library `urlparse` accepts inside a scheme. -/
def isSchemeChar (c : Char) : Bool :=
  c.isAlphanum || c = '+' || c = '-' || c = '.'

/-- Modelled from the Python standard library `urllib.parse.urlparse` as used
by `WarcUri.__init__`: the parse yields a non-empty scheme (letter first,
scheme characters only, terminated by the first `:`) and a non-empty netloc
(the part after `//` up to the first of `/?#`).  `WarcUri` only asks whether
both are present. -/
def uriHasSchemeNetloc (s : String) : Bool :=
  match splitFirst ":" s with
  | [sch, rest] =>
    (match sch.data with
     | [] => false
     | c :: cs => c.isAlpha && (c :: cs).all isSchemeChar) &&
    pyStartsWith rest "//" &&
    !((rest.data.drop 2).takeWhile (fun c => !(c = '/' || c = '?' || c = '#'))).isEmpty
  | _ => false

/-- `WarcUri.__init__` / `WarcUri.from_str` (`models/warc_identifiers.py`):
raises `ValueError` on `None`, the empty string, or a URI without scheme and
netloc.  The `Option String` argument models the Python value that may be
`None` (as returned by `get_header`). -/
def WarcUri.fromStr (o : Option String) : Except PyErr WarcUri :=
  match o with
  | none => .error .valueError
  | some u =>
    if u = "" then .error .valueError
    else if uriHasSchemeNetloc u then .ok ⟨u⟩
    else .error .valueError

/-- Gregorian leap-year rule used by Python `datetime`. -/
def isLeapYear (y : Nat) : Bool :=
  (y % 4 = 0 && y % 100 ≠ 0) || y % 400 = 0

/-- Days in a month, as validated by Python `datetime`. -/
def daysInMonth (y mo : Nat) : Nat :=
  if mo = 2 then (if isLeapYear y then 29 else 28)
  else if mo = 4 ∨ mo = 6 ∨ mo = 9 ∨ mo = 11 then 30
  else 31

/-- Numeric value of a decimal digit character. -/
def digitVal (c : Char) : Nat := c.toNat - 48

/-- Modelled from Python `datetime.strptime(s, "%Y-%m-%dT%H:%M:%SZ")` as used
by `WarcRecord.__init__`: accepts exactly the literal 20-character layout with
a valid calendar date and time, returning the field values. -/
def warcDateParse (s : String) : Option (Nat × Nat × Nat × Nat × Nat × Nat) :=
  match s.data with
  | [y1, y2, y3, y4, '-', m1, m2, '-', d1, d2, 'T',
     h1, h2, ':', n1, n2, ':', s1, s2, 'Z'] =>
    if ([y1, y2, y3, y4, m1, m2, d1, d2, h1, h2, n1, n2, s1, s2].all Char.isDigit) then
      let y := 1000 * digitVal y1 + 100 * digitVal y2 + 10 * digitVal y3 + digitVal y4
      let mo := 10 * digitVal m1 + digitVal m2
      let d := 10 * digitVal d1 + digitVal d2
      let h := 10 * digitVal h1 + digitVal h2
      let mi := 10 * digitVal n1 + digitVal n2
      let se := 10 * digitVal s1 + digitVal s2
      if 1 ≤ y ∧ 1 ≤ mo ∧ mo ≤ 12 ∧ 1 ≤ d ∧ d ≤ daysInMonth y mo ∧
         h ≤ 23 ∧ mi ≤ 59 ∧ se ≤ 59 then
        some (y, mo, d, h, mi, se)
      else none
    else none
  | _ => none

/-- A UTF-8 continuation byte. -/
def isContByte (b : Nat) : Bool := 0x80 ≤ b && b ≤ 0xBF

/-- Modelled from Python `bytes.decode("utf-8", errors=...)` (fuel-indexed
worker; the fuel is the byte count, and every step consumes at least one
byte).  Valid sequences decode to their scalar value; an ill-formed maximal
subpart is dropped when `replace` is `false` (Python `errors="ignore"`, the
mode `warc_record_parser.py` uses) and becomes U+FFFD when `replace` is
`true` (Python `errors="replace"`, the behaviour the specification
describes). -/
def decodeUtf8Go (replace : Bool) : Nat → List Nat → List Char
  | 0, _ => []
  | _ + 1, [] => []
  | fuel + 1, b :: rest =>
    let rep : List Char := if replace then [Char.ofNat 0xFFFD] else []
    if b ≤ 0x7F then
      Char.ofNat b :: decodeUtf8Go replace fuel rest
    else if 0xC2 ≤ b && b ≤ 0xDF then
      match rest with
      | b1 :: rest1 =>
        if isContByte b1 then
          Char.ofNat ((b - 0xC0) * 0x40 + (b1 - 0x80)) :: decodeUtf8Go replace fuel rest1
        else rep ++ decodeUtf8Go replace fuel rest
      | [] => rep
    else if 0xE0 ≤ b && b ≤ 0xEF then
      let lo1 := if b = 0xE0 then 0xA0 else 0x80
      let hi1 := if b = 0xED then 0x9F else 0xBF
      match rest with
      | b1 :: rest1 =>
        if lo1 ≤ b1 && b1 ≤ hi1 then
          match rest1 with
          | b2 :: rest2 =>
            if isContByte b2 then
              Char.ofNat ((b - 0xE0) * 0x1000 + (b1 - 0x80) * 0x40 + (b2 - 0x80)) ::
                decodeUtf8Go replace fuel rest2
            else rep ++ decodeUtf8Go replace fuel rest1
          | [] => rep
        else rep ++ decodeUtf8Go replace fuel rest
      | [] => rep
    else if 0xF0 ≤ b && b ≤ 0xF4 then
      let lo1 := if b = 0xF0 then 0x90 else 0x80
      let hi1 := if b = 0xF4 then 0x8F else 0xBF
      match rest with
      | b1 :: rest1 =>
        if lo1 ≤ b1 && b1 ≤ hi1 then
          match rest1 with
          | b2 :: rest2 =>
            if isContByte b2 then
              match rest2 with
              | b3 :: rest3 =>
                if isContByte b3 then
                  Char.ofNat ((b - 0xF0) * 0x40000 + (b1 - 0x80) * 0x1000 +
                      (b2 - 0x80) * 0x40 + (b3 - 0x80)) ::
                    decodeUtf8Go replace fuel rest3
                else rep ++ decodeUtf8Go replace fuel rest2
              | [] => rep
            else rep ++ decodeUtf8Go replace fuel rest1
          | [] => rep
        else rep ++ decodeUtf8Go replace fuel rest
      | [] => rep
    else rep ++ decodeUtf8Go replace fuel rest

/-- Python `bytes.decode("utf-8", errors="ignore")` when `replace` is `false`,
`errors="replace"` when `replace` is `true`. -/
def decodeUtf8 (replace : Bool) (bs : List Nat) : String :=
  String.mk (decodeUtf8Go replace bs.length bs)

/-- `models/warc_record.py` `WarcRecord` (the fields the direct-initialization
path of `__init__` stores).  `date` is kept as the validated header string:
the constructor accepts exactly the strings matched by `warcDateParse`, and
`strftime("%Y-%m-%dT%H:%M:%SZ")` of the parsed value reproduces the string, so
`date_str` is the field itself.  The constructor re-wrap
`WarcRecordId(kwargs["record_id"])` is modelled as the identity on the stored
id value. -/
structure WarcRecord where
  recordId : WarcRecordId
  recordType : String
  targetUri : WarcUri
  date : String
  content : String
  contentType : ContentType
  headers : List (String × String)
  payloadDigest : Option PayloadDigest
deriving Repr, DecidableEq

/-- `WarcRecord.content_length` property: Python `len(self.content)`, the
number of characters of the decoded content string. -/
def WarcRecord.contentLength (r : WarcRecord) : Nat :=
  r.content.length

/-- `WarcRecord.__init__` direct-field path as invoked by
`WarcRecordParser.parse`: the URI and content type are already constructed
objects and are stored as given; the date is a string and is validated by
`datetime.strptime` with the literal format, raising `ValueError` on
mismatch. -/
def WarcRecord.init (rid : WarcRecordId) (rty : String) (uri : WarcUri)
    (date : String) (ct : ContentType) (content : String)
    (hdrs : List (String × String)) (pd : Option PayloadDigest) :
    Except PyErr WarcRecord :=
  if (warcDateParse date).isSome then
    .ok ⟨rid, rty, uri, date, content, ct, hdrs, pd⟩
  else .error .valueError

/-- `models/warc_record.py` `ProcessedWarcRecord`: the parsed record plus the
processed content and a metadata map. -/
structure ProcessedWarcRecord where
  record : WarcRecord
  processedContent : String
  metadata : List (String × String)
deriving Repr, DecidableEq

/-- warcio `StatusAndHeaders`: a status line and an ordered header list. -/
structure StatusAndHeaders where
  statusline : String
  headers : List (String × String)
deriving Repr, DecidableEq

/-- warcio `StatusAndHeaders.get_header`: case-insensitive lookup of the
first matching header, `None` when absent. -/
def getHeader (h : StatusAndHeaders) (name : String) : Option String :=
  (h.headers.find? (fun p => pyLower p.1 = pyLower name)).map (fun p => p.2)

/-- warcio `get_header` with a default value. -/
def getHeaderD (h : StatusAndHeaders) (name default : String) : String :=
  (getHeader h name).getD default

/-- warcio `StatusAndHeaders.get_statuscode`: the first space-separated token
of the status line. -/
def getStatuscode (h : StatusAndHeaders) : String :=
  (splitFirst " " h.statusline).headD ""

/-- The payload stream of a raw record: `content_stream()` may be `None`
(`absent`), reading it may raise `IOError` (`failing`), or it yields the
payload bytes. -/
inductive ByteStream where
  | absent
  | failing
  | bytes (bs : List Nat)
deriving Repr, DecidableEq

/-- warcio `ArcWarcRecord` as consumed by `WarcRecordParser`: record type,
WARC header block, HTTP header block (either may be missing), and the payload
stream. -/
structure ArcWarcRecord where
  recType : String
  recHeaders : Option StatusAndHeaders
  httpHeaders : Option StatusAndHeaders
  stream : ByteStream
deriving Repr, DecidableEq

/-- `WarcRecordParser._validate_record_type` (`warc_record_parser.py` lines
38-62): `response` type required; with HTTP headers present the status must
be `"200"`; with no HTTP headers the record is rejected. -/
def WarcRecordParser.validateRecordType (r : ArcWarcRecord) : Bool :=
  if r.recType ≠ "response" then false
  else
    match r.httpHeaders with
    | some hh => getStatuscode hh = "200"
    | none => false

/-- `WarcRecordParser._extract_required_fields` (`warc_record_parser.py`
lines 64-92).  `WarcRecordId` accepts a missing header; `WarcUri.from_str`
raises `ValueError` on a missing or invalid target URI (the error escapes
this helper); the `all([target_uri, date])` guard only tests the URI object
(always truthy) and the date string, so only a missing or empty date yields
the `none` (skip) result here.  A missing WARC header block would raise
`AttributeError`. -/
def WarcRecordParser.extractRequiredFields (r : ArcWarcRecord) :
    Except PyErr (Option (WarcRecordId × WarcUri × String)) :=
  match r.recHeaders with
  | none => .error .attributeError
  | some hh =>
    let recordId : WarcRecordId := ⟨getHeader hh "WARC-Record-ID"⟩
    match WarcUri.fromStr (getHeader hh "WARC-Target-URI") with
    | .error e => .error e
    | .ok targetUri =>
      match getHeader hh "WARC-Date" with
      | none => .ok none
      | some d => if d = "" then .ok none else .ok (some (recordId, targetUri, d))

/-- `WarcRecordParser._extract_content` (`warc_record_parser.py` lines
94-131): resolve the content type from the HTTP headers with default
`text/html` (a `ContentTypeError` is a `ValueError` and escapes the
`except (AttributeError, IOError)` clause), then read the payload; a missing
stream, a read failure, or an empty payload give the `none` (skip) result;
the payload is decoded as UTF-8 with `errors="ignore"`. -/
def WarcRecordParser.extractContent (r : ArcWarcRecord) :
    Except PyErr (Option (String × ContentType)) :=
  match r.httpHeaders with
  | none => .ok none
  | some hh =>
    match ContentType.parse (getHeaderD hh "Content-Type" "text/html") with
    | none => .error .valueError
    | some ct =>
      match r.stream with
      | .absent => .ok none
      | .failing => .ok none
      | .bytes bs =>
        if bs.isEmpty then .ok none
        else .ok (some (decodeUtf8 false bs, ct))

/-- `WarcRecordParser._build_headers_dict` (`warc_record_parser.py` lines
133-146): copy the HTTP header pairs into a dict in order. -/
def WarcRecordParser.buildHeadersDict (o : Option StatusAndHeaders) :
    List (String × String) :=
  match o with
  | none => []
  | some hh => hh.headers.foldl (fun acc p => dictInsert p.1 p.2 acc) []

/-- The body of the `try` block of `WarcRecordParser.parse`
(`warc_record_parser.py` lines 161-198), before the
`except (ValueError, URLError)` clause is applied. -/
def WarcRecordParser.parseBody (r : ArcWarcRecord) : Except PyErr (Option WarcRecord) :=
  if !WarcRecordParser.validateRecordType r then .ok none
  else
    match WarcRecordParser.extractRequiredFields r with
    | .error e => .error e
    | .ok none => .ok none
    | .ok (some (recordId, targetUri, date)) =>
      match WarcRecordParser.extractContent r with
      | .error e => .error e
      | .ok none => .ok none
      | .ok (some (content, contentType)) =>
        match r.recHeaders with
        | none => .error .attributeError
        | some hh =>
          let payloadDigest : Option PayloadDigest :=
            (getHeader hh "WARC-Payload-Digest").map (fun s => ⟨s⟩)
          let responseHeaders := WarcRecordParser.buildHeadersDict r.httpHeaders
          match WarcRecord.init recordId r.recType targetUri date contentType
              content responseHeaders payloadDigest with
          | .ok rec => .ok (some rec)
          | .error _ => .error .valueError

/-- `WarcRecordParser.parse` (`warc_record_parser.py` lines 148-202):
run the body and turn a raised `ValueError` into the skip result `none`;
an `AttributeError` is not caught and propagates. -/
def WarcRecordParser.parse (r : ArcWarcRecord) : Except PyErr (Option WarcRecord) :=
  match WarcRecordParser.parseBody r with
  | .ok v => .ok v
  | .error .valueError => .ok none
  | .error .attributeError => .error .attributeError

/-- `warc_record_processor.py` `WarcRecordProcessor` as used by
`WarcProcessor._process_record`: `can_process` inspects a `ProcessorInput`
(current content and content type); `process` returns the transformed content
or raises (`ValueError`, per the interface contract), modelled as
`Except Unit`. -/
structure Processor where
  canProcess : String → ContentType → Bool
  run : String → ContentType → Except Unit String

/-- The `for processor in self.processors` loop of
`WarcProcessor._process_record` (`warc_processor.py` lines 155-174): skip
processors whose `can_process` is false; a raised error aborts the loop; the
result of each accepting processor becomes the current content (even when it
is empty, because the assignment precedes the `if not current_content`
check). -/
def processLoop : List Processor → String → ContentType → Except Unit String
  | [], content, _ => .ok content
  | p :: ps, content, ct =>
    if p.canProcess content ct then
      match p.run content ct with
      | .error e => .error e
      | .ok res => processLoop ps res ct
    else processLoop ps content ct

/-- The observable effects of `WarcProcessor._process_record`: the returned
content (`none` for the `None` return), how often
`stats.track_failed_record()` was called, and the `track_bytes_processed`
amount. -/
structure ProcResult where
  content : Option String
  failedDelta : Nat
  bytesDelta : Nat
deriving Repr, DecidableEq

/-- `WarcProcessor._process_record` (`warc_processor.py` lines 134-177):
empty content returns `None` immediately; otherwise `len(record.content)`
bytes are tracked (Python `len` of the decoded string: the character count),
the processor loop runs, a processor error tracks one failed record and
returns `None`, and the final content is returned only when it differs from
the record's original content. -/
def WarcProcessor.processRecord (procs : List Processor) (r : WarcRecord) : ProcResult :=
  if r.content = "" then ⟨none, 0, 0⟩
  else
    let bytes := r.content.length
    match processLoop procs r.content r.contentType with
    | .error _ => ⟨none, 1, bytes⟩
    | .ok c => ⟨if c ≠ r.content then some c else none, 0, bytes⟩

/-- `processing_stats.py` `ProcessingStats` counters (the run-level monotone
counters; timing fields are outside the model). -/
structure ProcessingStats where
  recordsParsed : Nat
  recordsProcessed : Nat
  recordsSkipped : Nat
  recordsFailed : Nat
  bytesProcessed : Nat
deriving Repr, DecidableEq

/-- A fresh `ProcessingStats()`: all counters zero. -/
def ProcessingStats.init : ProcessingStats := ⟨0, 0, 0, 0, 0⟩

/-- One raw input entry as seen by `WarcProcessor._process_single_record`:
the raw warcio record plus whether `output_writer.write_record` would succeed
on it (a failing writer raises `ValueError`, which the per-record `except`
clause catches). -/
structure Entry where
  raw : ArcWarcRecord
  writeOk : Bool
deriving Repr, DecidableEq

/-- The part of `WarcProcessor._process_single_record` after a successful
parse (`warc_processor.py` lines 116-129): count the parsed record, run
`_process_record`, then either write and count the record processed (a write
failure is caught and counted failed), or count it skipped when the processed
content is falsy (`None` or empty).  Returns the written
(record, processed content) pair when a write happened. -/
def WarcProcessor.processParsedRecord (procs : List Processor) (s : ProcessingStats)
    (rec : WarcRecord) (writeOk : Bool) :
    ProcessingStats × Option (WarcRecord × String) :=
  let s1 := { s with recordsParsed := s.recordsParsed + 1 }
  let pr := WarcProcessor.processRecord procs rec
  let s2 := { s1 with recordsFailed := s1.recordsFailed + pr.failedDelta,
                      bytesProcessed := s1.bytesProcessed + pr.bytesDelta }
  match pr.content with
  | some c =>
    if c ≠ "" then
      if writeOk then
        ({ s2 with recordsProcessed := s2.recordsProcessed + 1 }, some (rec, c))
      else
        ({ s2 with recordsFailed := s2.recordsFailed + 1 }, none)
    else ({ s2 with recordsSkipped := s2.recordsSkipped + 1 }, none)
  | none => ({ s2 with recordsSkipped := s2.recordsSkipped + 1 }, none)

/-- `WarcProcessor._process_single_record` (`warc_processor.py` lines
103-132): a parser skip counts one skipped record; an escaping
`AttributeError` is caught by the `except (ValueError, AttributeError)`
clause and counts one failed record; otherwise the parsed record is
processed. -/
def WarcProcessor.processSingleRecord (procs : List Processor) (s : ProcessingStats)
    (e : Entry) : ProcessingStats × Option (WarcRecord × String) :=
  match WarcRecordParser.parse e.raw with
  | .error _ => ({ s with recordsFailed := s.recordsFailed + 1 }, none)
  | .ok none => ({ s with recordsSkipped := s.recordsSkipped + 1 }, none)
  | .ok (some rec) => WarcProcessor.processParsedRecord procs s rec e.writeOk

/-- `WarcProcessor._process_records_from_file` (`warc_processor.py` lines
87-101): fold `_process_single_record` over the entries in file order,
collecting the written records in order. -/
def WarcProcessor.runRecords (procs : List Processor) :
    List Entry → ProcessingStats → ProcessingStats × List (WarcRecord × String)
  | [], s => (s, [])
  | e :: es, s =>
    let step := WarcProcessor.processSingleRecord procs s e
    let rest := WarcProcessor.runRecords procs es step.1
    (rest.1, step.2.toList ++ rest.2)

/-- The fatal pre-processing errors of `WarcProcessor.process_warc_file`:
missing input path, missing output path (both `ValueError`), or an existing
output without `overwrite` (`FileExistsError`). -/
inductive ConfigErr where
  | noInput
  | noOutput
  | outputExists
deriving Repr, DecidableEq

/-- `WarcProcessor.process_warc_file` (`warc_processor.py` lines 43-85): the
three argument checks run in order before the writer is configured or any
input is opened; only then are the entries streamed.  An error carries the
statistics object as it stood when the error was raised (no counter has
changed).  Writer configuration and file I/O are modelled as non-failing
collaborators. -/
def WarcProcessor.processWarcFile (procs : List Processor)
    (inputPath outputPath : String) (outputExists overwrite : Bool)
    (entries : List Entry) (s : ProcessingStats) :
    Except (ConfigErr × ProcessingStats) (ProcessingStats × List (WarcRecord × String)) :=
  if inputPath = "" then .error (.noInput, s)
  else if outputPath = "" then .error (.noOutput, s)
  else if outputExists && !overwrite then .error (.outputExists, s)
  else .ok (WarcProcessor.runRecords procs entries s)

/-- `WarcProcessor.__init__` (`warc_processor.py` lines 21-41): an empty
processor list raises `ValueError`; otherwise the processors are stored. -/
def WarcProcessor.init (procs : List Processor) : Except PyErr (List Processor) :=
  if procs.isEmpty then .error .valueError else .ok procs

/-- `warc_record_processor_chain.py` processors: they receive the whole
`WarcRecord` (the chain's duck-typed input shape); `process` may return
`None`, and any raised exception is caught by the chain. -/
structure ChainProcessor where
  canProcess : WarcRecord → Bool
  run : WarcRecord → Except Unit (Option String)

/-- The loop of `WarcRecordProcessorChain.process`
(`warc_record_processor_chain.py` lines 48-65): skip non-matching
processors; a raised exception returns `None` at once; a non-`None` result
becomes the current content and is also written back into the record for the
next processor. -/
def chainGo : List ChainProcessor → WarcRecord → Option String → Option String
  | [], _, current =>
    match current with
    | some c => if c = "" then none else some c
    | none => none
  | p :: ps, r, current =>
    if p.canProcess r then
      match p.run r with
      | .error _ => none
      | .ok none => chainGo ps r current
      | .ok (some res) => chainGo ps { r with content := res } (some res)
    else chainGo ps r current

/-- `WarcRecordProcessorChain.process` (`warc_record_processor_chain.py`
lines 33-71): run the loop starting from `current_content = None`; the final
`if not current_content` check makes `None` and the empty string both the
`None` result. -/
def WarcRecordProcessorChain.process (procs : List ChainProcessor) (r : WarcRecord) :
    Option String :=
  chainGo procs r none

/-- `str(WarcRecordId)` as the writers render it: the stored id value, with
Python rendering `None` as the text `None`. -/
def WarcRecordId.str (i : WarcRecordId) : String :=
  match i.recordId with
  | some s => s
  | none => "None"

/-- The original-header section of `writers/plain_text_writer.py`
`write_record` (lines 80-82): headers whose name starts with
`Content-Length` are not copied. -/
def writersHeadersKept (r : ProcessedWarcRecord) : List (String × String) :=
  r.record.headers.filter (fun p => !pyStartsWith p.1 "Content-Length")

/-- `writers/plain_text_writer.py` `PlainTextWriter.write_record` (lines
55-89), as the ordered list of strings passed to `f.write`.  The date chunk
uses the stored date string (`strftime` of the parsed date reproduces it). -/
def writersWriteRecordChunks (r : ProcessedWarcRecord) : List String :=
  ["WARC/1.0\n",
   "WARC-Type: " ++ r.record.recordType ++ "\n",
   "WARC-Target-URI: " ++ r.record.targetUri.uri ++ "\n",
   "WARC-Date: " ++ r.record.date ++ "\n",
   "WARC-Record-ID: " ++ r.record.recordId.str ++ "\n"] ++
  (match r.record.payloadDigest with
   | some d => ["WARC-Payload-Digest: " ++ d.digest ++ "\n"]
   | none => []) ++
  (writersHeadersKept r).map (fun p => p.1 ++ ": " ++ p.2 ++ "\n") ++
  ["Content-Length: " ++ toString r.processedContent.utf8ByteSize ++ "\n",
   "\n",
   r.processedContent,
   "\n",
   "WARC/1.0\n\n"]

/-- The header names the legacy top-level `plain_text_writer.py` skips when
copying original headers (lines 98-104); `content-length` is not among
them. -/
def legacySkipHeader (k : String) : Bool :=
  ["warc-type", "warc-record-id", "warc-date", "warc-target-uri",
   "content-type", "warc-payload-digest"].contains (pyLower k)

/-- Legacy top-level `plain_text_writer.py` `PlainTextWriter.write_record`
(lines 68-117), as the ordered list of strings passed to `f.write`. -/
def legacyWriteRecordChunks (r : ProcessedWarcRecord) : List String :=
  ["WARC/1.0\n",
   "WARC-Type: " ++ r.record.recordType ++ "\n",
   "WARC-Record-ID: " ++ r.record.recordId.str ++ "\n",
   "WARC-Date: " ++ r.record.date ++ "\n",
   "WARC-Target-URI: " ++ r.record.targetUri.uri ++ "\n",
   "Content-Type: " ++ r.record.contentType.str ++ "\n"] ++
  (match r.record.payloadDigest with
   | some d => ["WARC-Payload-Digest: " ++ d.digest ++ "\n"]
   | none => []) ++
  (r.record.headers.filter (fun p => !legacySkipHeader p.1)).map
    (fun p => p.1 ++ ": " ++ p.2 ++ "\n") ++
  ["Content-Length: " ++ toString r.processedContent.utf8ByteSize ++ "\n",
   "\n",
   r.processedContent,
   "\n\nWARC/1.0\n\n"]

/-- JSON whitespace characters. -/
def isJsonWs (c : Char) : Bool :=
  c = ' ' || c = '\t' || c = '\n' || c = '\r'

/-- A string is a syntactically valid empty JSON array exactly when its
non-whitespace characters are a `[` followed by a `]`. -/
def isEmptyJsonArray (s : String) : Bool :=
  s.data.filter (fun c => !isJsonWs c) = ['[', ']']

/-- The record section of `writers/json_writer.py`: `write_record` (lines
58-87) prepends `,\n` before every record except the first and appends the
serialized record object.  `json.dump` of the record dictionary is the
abstract `serialize` collaborator. -/
def jsonWriterBody (serialize : ProcessedWarcRecord → String) :
    List ProcessedWarcRecord → Bool → String
  | [], _ => ""
  | r :: rs, first =>
    (if first then "" else ",\n") ++ serialize r ++ jsonWriterBody serialize rs false

/-- The full output file of `writers/json_writer.py` for a run writing the
given records: `configure` (lines 30-56) writes the opening bracket line,
`write_record` appends the records, and `__del__` (lines 89-93) appends the
closing bracket. -/
def jsonWriterFile (serialize : ProcessedWarcRecord → String)
    (records : List ProcessedWarcRecord) : String :=
  "[\n" ++ jsonWriterBody serialize records true ++ "\n]"

/-- A processor whose `can_process` always accepts and whose `process` always
raises. -/
def procAlwaysFail : Processor := ⟨fun _ _ => true, fun _ _ => .error ()⟩

/-- A processor whose `can_process` always declines. -/
def procNeverMatch : Processor := ⟨fun _ _ => false, fun c _ => .ok c⟩

/-- A processor that accepts everything and appends a marker to the
content. -/
def procBang : Processor := ⟨fun _ _ => true, fun c _ => .ok (c ++ "!")⟩

/-- A chain processor whose `can_process` always declines. -/
def cpNeverMatch : ChainProcessor := ⟨fun _ => false, fun _ => .ok none⟩

/-- A chain processor that accepts everything and raises. -/
def cpFail : ChainProcessor := ⟨fun _ => true, fun _ => .error ()⟩

/-- A well-formed parsed record with content `hi`. -/
def recHi : WarcRecord :=
  ⟨⟨some "<id>"⟩, "response", ⟨"http://example.com"⟩, "2024-01-01T00:00:00Z",
   "hi", ⟨"text", "html", []⟩, [], none⟩

/-- A parsed record whose content is the single non-ASCII character `é`
(one character, two UTF-8 bytes). -/
def recAccent : WarcRecord :=
  ⟨⟨some "<id>"⟩, "response", ⟨"http://example.com"⟩, "2024-01-01T00:00:00Z",
   "é", ⟨"text", "html", []⟩, [], none⟩

/-- A raw response entry with status 200 and a valid target URI and date but
no `WARC-Record-ID` header. -/
def rawNoId : ArcWarcRecord :=
  ⟨"response",
   some ⟨"WARC/1.0", [("WARC-Target-URI", "http://example.com"),
                      ("WARC-Date", "2024-01-01T00:00:00Z")]⟩,
   some ⟨"200 OK", [("Content-Type", "text/html")]⟩,
   .bytes [104, 105]⟩

/-- The record `WarcRecordParser.parse` builds for `rawNoId`: the record id
holds the missing (`None`) header value. -/
def recNoId : WarcRecord :=
  ⟨⟨none⟩, "response", ⟨"http://example.com"⟩, "2024-01-01T00:00:00Z",
   "hi", ⟨"text", "html", []⟩, [("Content-Type", "text/html")], none⟩

/-- A raw response entry lacking only the `WARC-Target-URI` header. -/
def rawNoUri : ArcWarcRecord :=
  ⟨"response",
   some ⟨"WARC/1.0", [("WARC-Record-ID", "<id>"),
                      ("WARC-Date", "2024-01-01T00:00:00Z")]⟩,
   some ⟨"200 OK", [("Content-Type", "text/html")]⟩,
   .bytes [104, 105]⟩

/-- A complete, valid raw response entry with payload `hi`. -/
def rawHi : ArcWarcRecord :=
  ⟨"response",
   some ⟨"WARC/1.0", [("WARC-Record-ID", "<id>"),
                      ("WARC-Target-URI", "http://example.com"),
                      ("WARC-Date", "2024-01-01T00:00:00Z")]⟩,
   some ⟨"200 OK", [("Content-Type", "text/html")]⟩,
   .bytes [104, 105]⟩

/-- The record `WarcRecordParser.parse` builds for `rawHi`. -/
def recHiParsed : WarcRecord :=
  ⟨⟨some "<id>"⟩, "response", ⟨"http://example.com"⟩, "2024-01-01T00:00:00Z",
   "hi", ⟨"text", "html", []⟩, [("Content-Type", "text/html")], none⟩

/-- A raw non-response entry: the parser skips it, so the orchestrator counts
it skipped without counting it parsed. -/
def rawRequest : ArcWarcRecord := ⟨"request", none, none, .absent⟩

/-- A valid raw response entry whose payload starts with the invalid byte
`0xFF` followed by `a` (`0x61`). -/
def rawBadByte : ArcWarcRecord :=
  ⟨"response",
   some ⟨"WARC/1.0", [("WARC-Record-ID", "<id>"),
                      ("WARC-Target-URI", "http://example.com"),
                      ("WARC-Date", "2024-01-01T00:00:00Z")]⟩,
   some ⟨"200 OK", [("Content-Type", "text/html")]⟩,
   .bytes [255, 97]⟩

/-- The record `WarcRecordParser.parse` builds for `rawBadByte`: the invalid
leading byte is dropped by `errors="ignore"`. -/
def recBadByte : WarcRecord :=
  ⟨⟨some "<id>"⟩, "response", ⟨"http://example.com"⟩, "2024-01-01T00:00:00Z",
   "a", ⟨"text", "html", []⟩, [("Content-Type", "text/html")], none⟩

/-- A valid raw response entry whose payload stream reads successfully but is
empty. -/
def rawEmptyPayload : ArcWarcRecord :=
  ⟨"response",
   some ⟨"WARC/1.0", [("WARC-Record-ID", "<id>"),
                      ("WARC-Target-URI", "http://example.com"),
                      ("WARC-Date", "2024-01-01T00:00:00Z")]⟩,
   some ⟨"200 OK", [("Content-Type", "text/html")]⟩,
   .bytes []⟩

/-- A processed record whose original payload is 3 bytes (`abc`, with the
matching original `Content-Length: 3` HTTP header) and whose extracted text
is 5 bytes (`hello`). -/
def procd5 : ProcessedWarcRecord :=
  ⟨⟨⟨some "<id>"⟩, "response", ⟨"http://example.com"⟩, "2024-01-01T00:00:00Z",
    "abc", ⟨"text", "html", []⟩,
    [("Content-Length", "3"), ("X-Extra", "v")], none⟩,
   "hello", []⟩

theorem utf8SizeOneOfAscii (c : Char) (h : c.toNat ≤ 127) : c.utf8Size = 1 := by
  unfold Char.utf8Size
  rw [if_pos]
  rw [UInt32.le_def]
  rw [BitVec.le_def]
  have h2 : c.val.toBitVec.toNat = c.toNat := rfl
  have h3 : (UInt32.ofNatCore 127 Char.utf8Size.proof_1).toBitVec.toNat = 127 := rfl
  rw [h2, h3]
  exact h

theorem utf8ByteSizeGoAscii :
    ∀ (l : List Char), (∀ c ∈ l, c.toNat ≤ 127) → String.utf8ByteSize.go l = l.length
  | [], _ => rfl
  | c :: cs, h => by
    have hc : c.utf8Size = 1 := utf8SizeOneOfAscii c (h c (by simp))
    have ih := utf8ByteSizeGoAscii cs (fun x hx => h x (by simp [hx]))
    show String.utf8ByteSize.go cs + c.utf8Size = cs.length + 1
    rw [hc, ih]

theorem stringLengthEqUtf8OfAscii (s : String) (h : ∀ c ∈ s.data, c.toNat ≤ 127) :
    s.length = s.utf8ByteSize := by
  cases s with
  | mk d =>
    show d.length = String.utf8ByteSize.go d
    exact (utf8ByteSizeGoAscii d h).symm

/-- Claim C2, corrected: `WarcRecord.content_length` is Python
`len(self.content)`, the number of characters of the content string, which
coincides with the UTF-8 byte length exactly for ASCII-only content (the
claim's byte-length reading fails on non-ASCII content). -/
theorem warcRecordContentLengthCharCount (r : WarcRecord) :
    r.contentLength = r.content.length ∧
    ((∀ c ∈ r.content.data, c.toNat ≤ 127) → r.contentLength = r.content.utf8ByteSize) :=
  ⟨rfl, fun h => stringLengthEqUtf8OfAscii r.content h⟩

/-- Claim C2 counterexample: a record whose content is the single two-byte
character `é` has `content_length` 1, not its UTF-8 byte length 2. -/
theorem warcRecordContentLengthCounterexample :
    recAccent.contentLength ≠ recAccent.content.utf8ByteSize := by decide

/-- Claim C2 witness: the corrected statement evaluated on the ASCII record
`recHi`. -/
theorem warcRecordContentLengthCharCountWitness :
    recHi.contentLength = recHi.content.utf8ByteSize :=
  (warcRecordContentLengthCharCount recHi).2 (by decide)

/-- Claim C8, confirmed: with zero records written between `configure` and
finalization, the JSON writer's file is `[`, newline, newline, `]`, which is
a syntactically valid empty JSON array. -/
theorem jsonWriterEmptyArray (serialize : ProcessedWarcRecord → String) :
    jsonWriterFile serialize [] = "[\n\n]" ∧
    isEmptyJsonArray (jsonWriterFile serialize []) = true := by
  have h1 : jsonWriterFile serialize [] = "[\n\n]" := rfl
  refine ⟨h1, ?_⟩
  rw [h1]
  decide

/-- Claim C10, confirmed: constructing `WarcProcessor` with an empty
processor list raises `ValueError`, and every successful construction stores
the given non-empty processor list. -/
theorem warcProcessorInitNonempty :
    WarcProcessor.init [] = .error .valueError ∧
    ∀ (procs stored : List Processor),
      WarcProcessor.init procs = .ok stored → stored ≠ [] ∧ stored = procs := by
  constructor
  · rfl
  · intro procs stored h
    unfold WarcProcessor.init at h
    by_cases he : procs.isEmpty
    · rw [if_pos he] at h
      exact absurd h (by simp)
    · rw [if_neg he] at h
      cases h
      exact ⟨by simpa [List.isEmpty_iff] using he, rfl⟩

/-- Claim C10 witness: the construction theorem applied to a concrete
one-element processor list. -/
theorem warcProcessorInitNonemptyWitness :
    ([procBang] : List Processor) ≠ [] ∧ ([procBang] : List Processor) = [procBang] :=
  warcProcessorInitNonempty.2 [procBang] [procBang] rfl

/-- Claim C6, confirmed: when the output destination exists and overwrite was
not requested, `process_warc_file` fails with the `FileExistsError`
configuration error before reading any input entry (the result does not
depend on the entries) and returns with the statistics unchanged. -/
theorem processWarcFileExistingOutput (procs : List Processor)
    (inputPath outputPath : String) (entries : List Entry) (s : ProcessingStats)
    (h1 : inputPath ≠ "") (h2 : outputPath ≠ "") :
    WarcProcessor.processWarcFile procs inputPath outputPath true false entries s =
      .error (.outputExists, s) := by
  unfold WarcProcessor.processWarcFile
  rw [if_neg h1, if_neg h2]
  rfl

/-- Claim C6 witness: the fail-fast theorem evaluated at concrete paths,
entries and statistics. -/
theorem processWarcFileExistingOutputWitness :
    WarcProcessor.processWarcFile [procBang] "in.warc" "out.txt" true false
      [⟨rawHi, true⟩] ProcessingStats.init =
      .error (.outputExists, ProcessingStats.init) :=
  processWarcFileExistingOutput [procBang] "in.warc" "out.txt"
    [⟨rawHi, true⟩] ProcessingStats.init (by decide) (by decide)

/-- Claim C3 counterexample: the chain's result for a record no extractor
matches equals its result for a record whose extractor raises — both are
`None` — so the two outcomes are not distinguishable from the result. -/
theorem chainOutcomesCounterexample :
    WarcRecordProcessorChain.process [cpNeverMatch] recHi = none ∧
    WarcRecordProcessorChain.process [cpFail] recHi = none :=
  ⟨rfl, rfl⟩

/-- Claim C3, corrected: the chain and `_process_record` return only two
outcomes, content or `None`; `None` covers both no-extractor-matched and
extraction-failed, and the failure is signalled separately through the
failed-record counter (`failedDelta`), not through the return value. -/
theorem chainConflatesNoMatchAndFailure (r : WarcRecord) (h : r.content ≠ "") :
    (WarcProcessor.processRecord [procAlwaysFail] r).content = none ∧
    (WarcProcessor.processRecord [procAlwaysFail] r).failedDelta = 1 ∧
    (WarcProcessor.processRecord [procNeverMatch] r).content = none ∧
    (WarcProcessor.processRecord [procNeverMatch] r).failedDelta = 0 ∧
    WarcRecordProcessorChain.process [cpFail] r =
      WarcRecordProcessorChain.process [cpNeverMatch] r := by
  unfold WarcProcessor.processRecord
  rw [if_neg h, if_neg h]
  refine ⟨?_, ?_, ?_, ?_, rfl⟩ <;>
    simp [processLoop, procAlwaysFail, procNeverMatch]

/-- Claim C3 witness: the corrected statement evaluated on the concrete
record `recHi`. -/
theorem chainConflatesNoMatchAndFailureWitness :
    (WarcProcessor.processRecord [procAlwaysFail] recHi).content = none ∧
    (WarcProcessor.processRecord [procAlwaysFail] recHi).failedDelta = 1 ∧
    (WarcProcessor.processRecord [procNeverMatch] recHi).content = none ∧
    (WarcProcessor.processRecord [procNeverMatch] recHi).failedDelta = 0 ∧
    WarcRecordProcessorChain.process [cpFail] recHi =
      WarcRecordProcessorChain.process [cpNeverMatch] recHi :=
  chainConflatesNoMatchAndFailure recHi (by decide)

/-- Claim C5 counterexample: the legacy top-level writer copies an original
`Content-Length` header through, so its output carries a `Content-Length`
value equal to the original payload byte length (3) alongside the recomputed
one for the 5-byte extracted text. -/
theorem writerContentLengthCounterexample :
    ("Content-Length: 3\n") ∈ legacyWriteRecordChunks procd5 ∧
    String.utf8ByteSize procd5.record.content = 3 ∧
    String.utf8ByteSize procd5.processedContent = 5 ∧
    ("Content-Length: 3\n") ≠ ("Content-Length: 5\n") := by
  refine ⟨?_, by decide, by decide, by decide⟩
  decide

/-- Claim C5, corrected: both archive-text writers emit a `Content-Length`
header recomputed from the UTF-8 byte length of the processed text, and the
`writers/` version never copies an original `Content-Length` header; but the
legacy top-level writer does copy original `Content-Length` headers through
(see the counterexample). -/
theorem writerContentLengthRecomputed (r : ProcessedWarcRecord) :
    ("Content-Length: " ++ toString r.processedContent.utf8ByteSize ++ "\n") ∈
        writersWriteRecordChunks r ∧
    ("Content-Length: " ++ toString r.processedContent.utf8ByteSize ++ "\n") ∈
        legacyWriteRecordChunks r ∧
    ∀ p ∈ writersHeadersKept r, ¬ (pyStartsWith p.1 "Content-Length" = true) := by
  refine ⟨?_, ?_, ?_⟩
  · unfold writersWriteRecordChunks
    simp
  · unfold legacyWriteRecordChunks
    simp
  · intro p hp
    have hf := List.of_mem_filter hp
    simpa using hf

/-- Claim C5 witness: the corrected statement evaluated on the concrete
processed record `procd5`, with the kept-header conclusion instantiated at
its `X-Extra` header. -/
theorem writerContentLengthRecomputedWitness :
    ("Content-Length: " ++ toString procd5.processedContent.utf8ByteSize ++ "\n") ∈
        writersWriteRecordChunks procd5 ∧
    ¬ (pyStartsWith ("X-Extra", "v").1 "Content-Length" = true) :=
  ⟨(writerContentLengthRecomputed procd5).1,
   (writerContentLengthRecomputed procd5).2.2 ("X-Extra", "v") (by decide)⟩

/-- Claim C7 counterexample: the parser decodes the payload `0xFF 0x61` with
`errors="ignore"`, yielding `a` with the invalid byte dropped, which differs
from the replacement-mode decoding the claim describes; and a successfully
read but empty payload is also skipped. -/
theorem parserDecodeCounterexample :
    WarcRecordParser.parse rawBadByte = .ok (some recBadByte) ∧
    recBadByte.content = decodeUtf8 false [255, 97] ∧
    decodeUtf8 false [255, 97] ≠ decodeUtf8 true [255, 97] ∧
    WarcRecordParser.extractContent rawEmptyPayload = .ok none := by
  refine ⟨by decide, by decide, by decide, by decide⟩

/-- Claim C7, corrected: `_extract_content` decodes a successfully read,
non-empty payload as UTF-8 with invalid byte sequences dropped
(`errors="ignore"`), and returns the skip result when the stream is absent,
cannot be read, or the payload is empty. -/
theorem parserDecodeIgnoresInvalid (r : ArcWarcRecord) (hh : StatusAndHeaders)
    (ct : ContentType) (h1 : r.httpHeaders = some hh)
    (h2 : ContentType.parse (getHeaderD hh "Content-Type" "text/html") = some ct) :
    (∀ bs, r.stream = .bytes bs → bs ≠ [] →
        WarcRecordParser.extractContent r = .ok (some (decodeUtf8 false bs, ct))) ∧
    ((r.stream = .absent ∨ r.stream = .failing ∨ r.stream = .bytes []) →
        WarcRecordParser.extractContent r = .ok none) := by
  have hred : WarcRecordParser.extractContent r =
      (match r.stream with
       | .absent => Except.ok none
       | .failing => Except.ok none
       | .bytes bs =>
         if bs.isEmpty then Except.ok none
         else Except.ok (some (decodeUtf8 false bs, ct))) := by
    unfold WarcRecordParser.extractContent
    rw [h1]
    simp [h2]
  constructor
  · intro bs hbs hne
    rw [hred, hbs]
    simp [List.isEmpty_iff, hne]
  · intro hcase
    rcases hcase with hc | hc | hc <;> (rw [hred, hc]; try simp)

/-- Claim C7 witness: the corrected statement evaluated on the concrete raw
record `rawBadByte`. -/
theorem parserDecodeIgnoresInvalidWitness :
    WarcRecordParser.extractContent rawBadByte =
      .ok (some (decodeUtf8 false [255, 97], ⟨"text", "html", []⟩)) :=
  (parserDecodeIgnoresInvalid rawBadByte
      ⟨"200 OK", [("Content-Type", "text/html")]⟩ ⟨"text", "html", []⟩
      rfl (by decide)).1 [255, 97] rfl (by decide)

theorem fromStrCases (o : Option String) :
    WarcUri.fromStr o = .error .valueError ∨ ∃ u, WarcUri.fromStr o = .ok u := by
  cases o with
  | none => exact .inl rfl
  | some u =>
    simp only [WarcUri.fromStr]
    by_cases h1 : u = ""
    · rw [if_pos h1]
      exact .inl rfl
    · rw [if_neg h1]
      by_cases h2 : uriHasSchemeNetloc u
      · rw [if_pos h2]
        exact .inr ⟨⟨u⟩, rfl⟩
      · rw [if_neg h2]
        exact .inl rfl

theorem extractRequiredFieldsMissing (r : ArcWarcRecord) (rh : StatusAndHeaders)
    (hrh : r.recHeaders = some rh)
    (hmiss : getHeader rh "WARC-Target-URI" = none ∨ getHeader rh "WARC-Date" = none) :
    WarcRecordParser.extractRequiredFields r = .error .valueError ∨
    WarcRecordParser.extractRequiredFields r = .ok none := by
  simp only [WarcRecordParser.extractRequiredFields, hrh]
  rcases hmiss with h1 | h1
  · simp only [h1]
    exact .inl rfl
  · rcases fromStrCases (getHeader rh "WARC-Target-URI") with hf | ⟨u, hf⟩
    · simp [hf]
    · simp [hf, h1]

/-- Claim C1, corrected: for a response entry, a missing target-uri or
timestamp header makes `parse` return the skip result; but a missing
record-id does not — the parser's `all([target_uri, date])` guard never
checks it, and the record is built with the missing id (see `rawNoId`). -/
theorem parserMissingFieldBehaviour :
    (∀ (r : ArcWarcRecord) (rh : StatusAndHeaders), r.recHeaders = some rh →
        (getHeader rh "WARC-Target-URI" = none ∨ getHeader rh "WARC-Date" = none) →
        WarcRecordParser.parse r = .ok none) ∧
    WarcRecordParser.parse rawNoId = .ok (some recNoId) := by
  constructor
  · intro r rh hrh hmiss
    unfold WarcRecordParser.parse WarcRecordParser.parseBody
    by_cases hv : WarcRecordParser.validateRecordType r
    · simp only [hv, Bool.not_true, Bool.false_eq_true, if_false]
      rcases extractRequiredFieldsMissing r rh hrh hmiss with he | he <;> rw [he]
    · simp [hv]
  · decide

/-- Claim C1 counterexample: the response entry `rawNoId` has status 200 and
no `WARC-Record-ID` header, yet `parse` returns a constructed record (whose
id holds the missing value), not the skip result. -/
theorem parserMissingRecordIdCounterexample :
    WarcRecordParser.parse rawNoId = .ok (some recNoId) ∧
    recNoId.recordId = ⟨none⟩ ∧
    WarcRecordParser.parse rawNoId ≠ .ok none := by
  refine ⟨by decide, rfl, by decide⟩

/-- Claim C1 witness: the skip half of the corrected statement evaluated on
the concrete entry `rawNoUri`, which lacks only the target URI. -/
theorem parserMissingFieldBehaviourWitness :
    WarcRecordParser.parse rawNoUri = .ok none :=
  parserMissingFieldBehaviour.1 rawNoUri
    ⟨"WARC/1.0", [("WARC-Record-ID", "<id>"), ("WARC-Date", "2024-01-01T00:00:00Z")]⟩
    rfl (.inl (by decide))

theorem statsInvariantStep (procs : List Processor) (s : ProcessingStats) (e : Entry)
    (h : s.recordsParsed ≤ s.recordsProcessed + s.recordsFailed + s.recordsSkipped) :
    ((WarcProcessor.processSingleRecord procs s e).1).recordsParsed ≤
      ((WarcProcessor.processSingleRecord procs s e).1).recordsProcessed +
      ((WarcProcessor.processSingleRecord procs s e).1).recordsFailed +
      ((WarcProcessor.processSingleRecord procs s e).1).recordsSkipped := by
  unfold WarcProcessor.processSingleRecord
  cases hp : WarcRecordParser.parse e.raw with
  | error e2 =>
    dsimp only
    omega
  | ok o =>
    cases o with
    | none =>
      dsimp only
      omega
    | some rec =>
      unfold WarcProcessor.processParsedRecord
      dsimp only
      cases hc : (WarcProcessor.processRecord procs rec).content with
      | none =>
        dsimp only
        omega
      | some c =>
        by_cases hce : c = ""
        · simp only [hce, ne_eq, not_true_eq_false, if_false]
          omega
        · simp only [ne_eq, hce, not_false_eq_true, if_true]
          by_cases hw : e.writeOk
          · simp only [hw, if_true]
            omega
          · simp [hw]
            omega

theorem statsInvariantRun (procs : List Processor) (entries : List Entry) :
    ∀ (s : ProcessingStats),
      s.recordsParsed ≤ s.recordsProcessed + s.recordsFailed + s.recordsSkipped →
      ((WarcProcessor.runRecords procs entries s).1).recordsParsed ≤
        ((WarcProcessor.runRecords procs entries s).1).recordsProcessed +
        ((WarcProcessor.runRecords procs entries s).1).recordsFailed +
        ((WarcProcessor.runRecords procs entries s).1).recordsSkipped := by
  induction entries with
  | nil => intro s h; exact h
  | cons e es ih =>
    intro s h
    have hstep := statsInvariantStep procs s e h
    have hrest := ih (WarcProcessor.processSingleRecord procs s e).1 hstep
    simpa [WarcProcessor.runRecords] using hrest

/-- Claim C4, corrected: over any run from fresh statistics, the parsed
counter is at most processed + failed + skipped; the claimed equality fails
because a parser skip increments only the skipped counter (see the
counterexample), and a pipeline failure increments both failed and
skipped. -/
theorem statsParsedLeTotal (procs : List Processor) (entries : List Entry) :
    ((WarcProcessor.runRecords procs entries ProcessingStats.init).1).recordsParsed ≤
      ((WarcProcessor.runRecords procs entries ProcessingStats.init).1).recordsProcessed +
      ((WarcProcessor.runRecords procs entries ProcessingStats.init).1).recordsFailed +
      ((WarcProcessor.runRecords procs entries ProcessingStats.init).1).recordsSkipped :=
  statsInvariantRun procs entries ProcessingStats.init (by decide)

/-- Claim C4 counterexample: one non-response entry is counted skipped but
not parsed, so after that run `parsed = 0` while
`processed + failed + skipped = 1`. -/
theorem statsParsedCounterexample :
    ¬ (((WarcProcessor.runRecords [procBang] [⟨rawRequest, true⟩] ProcessingStats.init).1).recordsParsed =
       ((WarcProcessor.runRecords [procBang] [⟨rawRequest, true⟩] ProcessingStats.init).1).recordsProcessed +
       ((WarcProcessor.runRecords [procBang] [⟨rawRequest, true⟩] ProcessingStats.init).1).recordsFailed +
       ((WarcProcessor.runRecords [procBang] [⟨rawRequest, true⟩] ProcessingStats.init).1).recordsSkipped) := by
  decide

theorem processRecordContentNe (procs : List Processor) (r : WarcRecord) (c : String)
    (h : (WarcProcessor.processRecord procs r).content = some c) :
    c ≠ r.content := by
  unfold WarcProcessor.processRecord at h
  by_cases hc : r.content = ""
  · rw [if_pos hc] at h
    cases h
  · rw [if_neg hc] at h
    dsimp only at h
    cases hl : processLoop procs r.content r.contentType with
    | error e =>
      rw [hl] at h
      cases h
    | ok c2 =>
      rw [hl] at h
      dsimp only at h
      by_cases hne : c2 ≠ r.content
      · rw [if_pos hne] at h
        cases h
        exact hne
      · rw [if_neg hne] at h
        cases h

theorem processSingleRecordWritten (procs : List Processor) (s : ProcessingStats)
    (e : Entry) (p : WarcRecord × String)
    (h : (WarcProcessor.processSingleRecord procs s e).2 = some p) :
    p.2 ≠ p.1.content ∧ p.2 ≠ "" := by
  unfold WarcProcessor.processSingleRecord at h
  cases hp : WarcRecordParser.parse e.raw with
  | error e2 =>
    rw [hp] at h
    cases h
  | ok o =>
    rw [hp] at h
    cases o with
    | none => cases h
    | some rec =>
      unfold WarcProcessor.processParsedRecord at h
      dsimp only at h
      cases hc : (WarcProcessor.processRecord procs rec).content with
      | none =>
        rw [hc] at h
        cases h
      | some c =>
        rw [hc] at h
        dsimp only at h
        by_cases hce : c = ""
        · rw [if_neg (by simp [hce])] at h
          cases h
        · rw [if_pos (by simp [hce])] at h
          by_cases hw : e.writeOk
          · rw [if_pos hw] at h
            dsimp only at h
            cases h
            exact ⟨processRecordContentNe procs rec c hc, hce⟩
          · rw [if_neg hw] at h
            cases h

theorem runRecordsWritten (procs : List Processor) (entries : List Entry) :
    ∀ (s : ProcessingStats) (p : WarcRecord × String),
      p ∈ (WarcProcessor.runRecords procs entries s).2 →
      p.2 ≠ p.1.content ∧ p.2 ≠ "" := by
  induction entries with
  | nil =>
    intro s p hp
    simp [WarcProcessor.runRecords] at hp
  | cons e es ih =>
    intro s p hp
    simp only [WarcProcessor.runRecords, List.mem_append] at hp
    rcases hp with hp | hp
    · cases ho : (WarcProcessor.processSingleRecord procs s e).2 with
      | none =>
        rw [ho] at hp
        cases hp
      | some q =>
        rw [ho] at hp
        simp only [Option.toList_some, List.mem_singleton] at hp
        subst hp
        exact processSingleRecordWritten procs s e p ho
    · exact ih (WarcProcessor.processSingleRecord procs s e).1 p hp

/-- Claim C9, confirmed: when the processor pipeline leaves a parsed
record's content unchanged (in particular when every processor declines),
`_process_record` returns `None` and the orchestrator counts the record
skipped and writes nothing; consequently every written record's processed
content differs from its original content (and is non-empty). -/
theorem unchangedContentSkipped :
    (∀ (procs : List Processor) (s : ProcessingStats) (rec : WarcRecord) (w : Bool),
        processLoop procs rec.content rec.contentType = .ok rec.content →
        WarcProcessor.processParsedRecord procs s rec w =
          ({ s with recordsParsed := s.recordsParsed + 1,
                    recordsSkipped := s.recordsSkipped + 1,
                    bytesProcessed := s.bytesProcessed + rec.content.length }, none)) ∧
    (∀ (procs : List Processor) (entries : List Entry) (p : WarcRecord × String),
        p ∈ (WarcProcessor.runRecords procs entries ProcessingStats.init).2 →
        p.2 ≠ p.1.content ∧ p.2 ≠ "") := by
  constructor
  · intro procs s rec w hloop
    by_cases hc : rec.content = ""
    · have hpr : WarcProcessor.processRecord procs rec = ⟨none, 0, 0⟩ := by
        unfold WarcProcessor.processRecord
        rw [if_pos hc]
      unfold WarcProcessor.processParsedRecord
      rw [hpr]
      simp [hc]
    · have hpr : WarcProcessor.processRecord procs rec = ⟨none, 0, rec.content.length⟩ := by
        unfold WarcProcessor.processRecord
        rw [if_neg hc]
        dsimp only
        rw [hloop]
        simp
      unfold WarcProcessor.processParsedRecord
      rw [hpr]
      simp
  · exact fun procs entries p hp => runRecordsWritten procs entries ProcessingStats.init p hp

/-- Claim C9 witness: the skip half evaluated on `recHi` with a declining
processor, and the written-record half evaluated on the concrete run that
writes `(recHiParsed, "hi!")`. -/
theorem unchangedContentSkippedWitness :
    WarcProcessor.processParsedRecord [procNeverMatch] ProcessingStats.init recHi true =
      ({ ProcessingStats.init with
          recordsParsed := ProcessingStats.init.recordsParsed + 1,
          recordsSkipped := ProcessingStats.init.recordsSkipped + 1,
          bytesProcessed := ProcessingStats.init.bytesProcessed + recHi.content.length }, none) ∧
    (("hi!" : String) ≠ recHiParsed.content ∧ ("hi!" : String) ≠ "") := by
  constructor
  · exact unchangedContentSkipped.1 [procNeverMatch] ProcessingStats.init recHi true (by decide)
  · exact unchangedContentSkipped.2 [procBang] [⟨rawHi, true⟩] (recHiParsed, "hi!") (by decide)

/-- Claim C4 witness: the inequality evaluated on a concrete one-entry
run. -/
theorem statsParsedLeTotalWitness :
    ((WarcProcessor.runRecords [procBang] [⟨rawHi, true⟩] ProcessingStats.init).1).recordsParsed ≤
      ((WarcProcessor.runRecords [procBang] [⟨rawHi, true⟩] ProcessingStats.init).1).recordsProcessed +
      ((WarcProcessor.runRecords [procBang] [⟨rawHi, true⟩] ProcessingStats.init).1).recordsFailed +
      ((WarcProcessor.runRecords [procBang] [⟨rawHi, true⟩] ProcessingStats.init).1).recordsSkipped :=
  statsParsedLeTotal [procBang] [⟨rawHi, true⟩]

/-- Claim C8 witness: the empty-array statement evaluated at a concrete
serializer. -/
theorem jsonWriterEmptyArrayWitness :
    jsonWriterFile (fun _ => "") [] = "[\n\n]" ∧
    isEmptyJsonArray (jsonWriterFile (fun _ => "") []) = true :=
  jsonWriterEmptyArray (fun _ => "")
